import Mathlib

/-!
Verification of the commit-history retrieval and file-classification pipeline
(`repo_scraper.py`, `commit_info.py`) against its natural-language specification.

The embedding works over `Str := List Char` so that every operation is a plain
computable function amenable to kernel evaluation.  Python string operations
(`endswith`, `in`, `split('/')[-1]`, `lower`, `strip`, `rstrip`) are modelled
character by character for the ASCII inputs the program handles.  Network
endpoints are modelled as response scripts (`Nat → Resp`), indexed by the number
of requests issued so far, and unbounded `while True` loops are given explicit
fuel; exhausting the fuel is reported as a distinct `hang` outcome so that
non-termination is observable in theorems.
-/

/-- Character lists standing for Python strings. -/
abbrev Str := List Char

/-- Convenience coercion from Lean string literals to the `Str` model. -/
def str (s : String) : Str := s.data

/-- ASCII lowercasing of one character, as Python `str.lower` acts on ASCII. -/
def lowerChar (c : Char) : Char :=
  if 65 ≤ c.toNat ∧ c.toNat ≤ 90 then Char.ofNat (c.toNat + 32) else c

/-- Python `s.lower()` for ASCII strings. -/
def lowerStr (s : Str) : Str := s.map lowerChar

/-- Boolean string-prefix test. -/
def isPrefixOfB : Str → Str → Bool
  | [], _ => true
  | _ :: _, [] => false
  | a :: as, b :: bs => a == b && isPrefixOfB as bs

/-- Python `s.endswith(suffix)`. -/
def endsWithB (s suffix : Str) : Bool := isPrefixOfB suffix.reverse s.reverse

/-- Python `needle in hay` substring containment. -/
def containsSub : Str → Str → Bool
  | [], needle => needle.isEmpty
  | hay@(_ :: t), needle => isPrefixOfB needle hay || containsSub t needle

/-- Helper for `lastSegment`: walk the string keeping the segment after the
last `'/'` seen so far (accumulated reversed). -/
def lastSegmentAux : Str → Str → Str
  | [], cur => cur.reverse
  | c :: rest, cur => if c == '/' then lastSegmentAux rest [] else lastSegmentAux rest (c :: cur)

/-- Python `filepath.split('/')[-1]`. -/
def lastSegment (s : Str) : Str := lastSegmentAux s []

/-- Python whitespace test for `str.strip()` on ASCII strings. -/
def isWsChar (c : Char) : Bool :=
  c == ' ' || c == '\t' || c == '\n' || c == '\r' || c == '\x0b' || c == '\x0c'

/-- Python `url.strip()`. -/
def pyStrip (s : Str) : Str :=
  ((s.dropWhile isWsChar).reverse.dropWhile isWsChar).reverse

/-- Python `s.rstrip(chars)`: removes every trailing character belonging to the
character SET `chars` (not the suffix `chars`). -/
def pyRstrip (s chars : Str) : Str :=
  (s.reverse.dropWhile (fun c => chars.elem c)).reverse

/-- Simple glob matching supporting `*` and `?`, as `fnmatch.fnmatch` would
behave on the patterns of this rule table (none of which use character
classes; in fact none contain `*` at all, so in this program the glob branch
of the filename tier is never taken). -/
def globMatch : Str → Str → Bool
  | [], [] => true
  | [], _ :: _ => false
  | '*' :: ps, [] => globMatch ps []
  | '*' :: ps, c :: s' => globMatch ps (c :: s') || globMatch ('*' :: ps) s'
  | '?' :: ps, _ :: s => globMatch ps s
  | _ :: _, [] => false
  | p :: ps, c :: s => p == c && globMatch ps s
termination_by p s => p.length + s.length
decreasing_by all_goals simp_arith

/-! ## The file classifier (`GitHubFileClassifier`, repo_scraper.py lines 10-102) -/

/-- Rule lists of one category of `GitHubFileClassifier.file_patterns`.  In the
Python dict a category may omit the `keywords` key (only `Test` has it); an
absent key behaves exactly like an empty list, which is how it is modelled. -/
structure CategoryRules where
  extensions : List Str
  paths : List Str
  filenames : List Str
  keywords : List Str

/-- `file_patterns['Development']`. -/
def devRules : CategoryRules :=
  { extensions := [str ".js", str ".ts", str ".jsx", str ".tsx", str ".py", str ".java",
      str ".cpp", str ".c", str ".h", str ".cs", str ".php", str ".rb", str ".go", str ".rs",
      str ".kt", str ".swift", str ".scala", str ".clj", str ".hs", str ".ml", str ".r",
      str ".m", str ".sql", str ".html", str ".css", str ".scss", str ".sass", str ".less",
      str ".vue", str ".svelte"]
    paths := [str "src/", str "lib/", str "app/", str "components/", str "pages/",
      str "views/", str "controllers/", str "models/", str "services/", str "utils/",
      str "helpers/", str "core/", str "common/", str "shared/"]
    filenames := [str "index.js", str "main.js", str "app.js", str "server.js",
      str "client.js", str "index.ts", str "main.ts", str "app.py", str "main.py",
      str "__init__.py"]
    keywords := [] }

/-- `file_patterns['Test']`. -/
def testRules : CategoryRules :=
  { extensions := [str ".test.js", str ".test.ts", str ".spec.js", str ".spec.ts",
      str ".test.py", str ".spec.py"]
    paths := [str "test/", str "tests/", str "__tests__/", str "spec/", str "specs/",
      str ".pytest_cache/", str "cypress/", str "e2e/", str "testing/"]
    filenames := [str "jest.config.js", str "jest.config.json", str "pytest.ini",
      str "conftest.py", str "karma.conf.js", str "protractor.conf.js", str "cypress.json"]
    keywords := [str "test", str "spec", str "mock", str "fixture", str "coverage"] }

/-- `file_patterns['Build']`. -/
def buildRules : CategoryRules :=
  { extensions := [str ".json", str ".xml", str ".yml", str ".yaml", str ".toml",
      str ".ini", str ".cfg", str ".conf"]
    paths := [str "build/", str "dist/", str "out/", str "target/", str "bin/",
      str "release/", str "scripts/", str "tools/", str "config/", str "configs/"]
    filenames := [str "package.json", str "package-lock.json", str "yarn.lock",
      str "pnpm-lock.yaml", str "Makefile", str "makefile", str "CMakeLists.txt",
      str "build.gradle", str "pom.xml", str "setup.py", str "setup.cfg",
      str "pyproject.toml", str "requirements.txt", str "Pipfile", str "poetry.lock",
      str "Cargo.toml", str "Cargo.lock", str "go.mod", str "go.sum",
      str "webpack.config.js", str "rollup.config.js", str "vite.config.js",
      str "tsconfig.json", str "babel.config.js", str ".babelrc", str ".eslintrc.js",
      str ".eslintrc.json", str "prettier.config.js", str "gulpfile.js",
      str "gruntfile.js", str "build.xml", str "build.yml", str "build.yaml"]
    keywords := [] }

/-- `file_patterns['Infrastructure']`. -/
def infraRules : CategoryRules :=
  { extensions := [str ".dockerfile", str ".tf", str ".hcl", str ".sh", str ".bat",
      str ".ps1", str ".cmd"]
    paths := [str "docker/", str "k8s/", str "kubernetes/", str "terraform/",
      str "ansible/", str "puppet/", str "chef/", str "vagrant/", str "helm/",
      str "deploy/", str "deployment/", str "infra/", str "infrastructure/", str "ops/",
      str "devops/", str ".github/", str ".gitlab/", str "ci/", str ".circleci/"]
    filenames := [str "Dockerfile", str "docker-compose.yml", str "docker-compose.yaml",
      str "Vagrantfile", str "Jenkinsfile", str "Procfile", str "Heroku.yml",
      str ".travis.yml", str ".gitlab-ci.yml", str "azure-pipelines.yml",
      str "terraform.tf", str "main.tf", str "variables.tf", str "outputs.tf",
      str "ansible.yml", str "playbook.yml", str "inventory.ini", str "nginx.conf",
      str "httpd.conf", str "apache.conf", str "kubernetes.yml", str "k8s.yml",
      str "deployment.yml", str "service.yml", str "helm-chart.yml", str "values.yml"]
    keywords := [] }

/-- Tier (a): `filepath.endswith(ext)` over the extension list — note it reads
the ORIGINAL-case `filepath`, not the lowercased copy. -/
def extTier (exts : List Str) (filepath : Str) : Bool :=
  exts.any (fun ext => endsWithB filepath ext)

/-- Tier (b): `path_pattern in path_lower` over the path list. -/
def pathTier (paths : List Str) (path_lower : Str) : Bool :=
  paths.any (fun pat => containsSub path_lower pat)

/-- Tier (c): exact (case-insensitive) filename match, with a glob branch for
patterns containing `*`. -/
def fileTier (filenames : List Str) (filename_lower : Str) : Bool :=
  filenames.any (fun pat =>
    if pat.contains '*' then globMatch (lowerStr pat) filename_lower
    else filename_lower == lowerStr pat)

/-- Tier (d): `keyword in filename_lower or keyword in path_lower`. -/
def kwTier (keywords : List Str) (filename_lower path_lower : Str) : Bool :=
  keywords.any (fun kw => containsSub filename_lower kw || containsSub path_lower kw)

/-- `GitHubFileClassifier.classify_file` (repo_scraper.py lines 65-102),
translated branch by branch: the four categories are visited in the dict's
insertion order Development, Test, Build, Infrastructure; inside a category the
tiers run in order extensions, paths, filenames, keywords, each `return`ing the
category name on first hit; if nothing matches the literal `'development'`
(lowercase) is returned. -/
def classify_file (filepath : Str) : Str :=
  let filename := lastSegment filepath
  let path_lower := lowerStr filepath
  let filename_lower := lowerStr filename
  if extTier devRules.extensions filepath then str "Development"
  else if pathTier devRules.paths path_lower then str "Development"
  else if fileTier devRules.filenames filename_lower then str "Development"
  else if extTier testRules.extensions filepath then str "Test"
  else if pathTier testRules.paths path_lower then str "Test"
  else if fileTier testRules.filenames filename_lower then str "Test"
  else if kwTier testRules.keywords filename_lower path_lower then str "Test"
  else if extTier buildRules.extensions filepath then str "Build"
  else if pathTier buildRules.paths path_lower then str "Build"
  else if fileTier buildRules.filenames filename_lower then str "Build"
  else if extTier infraRules.extensions filepath then str "Infrastructure"
  else if pathTier infraRules.paths path_lower then str "Infrastructure"
  else if fileTier infraRules.filenames filename_lower then str "Infrastructure"
  else str "development"

example : classify_file (str "src/main.py") = str "Development" := by decide
example : classify_file (str "tests/test_foo.py") = str "Development" := by decide
example : classify_file (str "package.json") = str "Build" := by decide
example : classify_file (str "Dockerfile") = str "Infrastructure" := by decide
example : classify_file (str "randomfile.xyz") = str "development" := by decide

/-! ## Spec-shaped classifier and classifier theorems -/

/-- The classifier's rule table as an ordered association list, mirroring the
insertion order of the Python dict `file_patterns`. -/
def file_patterns : List (Str × CategoryRules) :=
  [(str "Development", devRules), (str "Test", testRules),
   (str "Build", buildRules), (str "Infrastructure", infraRules)]

/-- Whether any rule tier of one category matches, tiers combined in their
evaluation order (a) extensions, (b) paths, (c) filenames, (d) keywords. -/
def categoryMatches (rules : CategoryRules) (filepath filename_lower path_lower : Str) : Bool :=
  extTier rules.extensions filepath ||
  pathTier rules.paths path_lower ||
  fileTier rules.filenames filename_lower ||
  kwTier rules.keywords filename_lower path_lower

/-- First category (in list order) any of whose tiers matches; the literal
`'development'` when none does. -/
def firstCategory (filepath filename_lower path_lower : Str) :
    List (Str × CategoryRules) → Str
  | [] => str "development"
  | (cat, rules) :: rest =>
    if categoryMatches rules filepath filename_lower path_lower then cat
    else firstCategory filepath filename_lower path_lower rest

/-- The classifier as the spec describes it (§4.4, §9): a single generic
first-match scan over the ordered (category, rules) list, with the one
correction that the fallback value is the lowercase string `'development'`. -/
def classifySpec (filepath : Str) : Str :=
  let filename := lastSegment filepath
  let path_lower := lowerStr filepath
  let filename_lower := lowerStr filename
  firstCategory filepath filename_lower path_lower file_patterns

theorem devRules_keywords : devRules.keywords = [] := rfl

theorem buildRules_keywords : buildRules.keywords = [] := rfl

theorem infraRules_keywords : infraRules.keywords = [] := rfl

theorem if_or_collapse {α : Type} (a b : Bool) (r e : α) :
    (if a then r else if b then r else e) = (if a || b then r else e) := by
  cases a <;> simp

/-- Claim C6 (amended): `classify_file` returns the first category, in the
fixed order Development, Test, Build, Infrastructure, any of whose tiers
(extensions, paths, filenames, keywords, in that order) matches; when no
category matches, the result is the lowercase string `'development'`
(not the title-case `'Development'` used for rule matches). -/
theorem classify_file_is_ordered_first_match :
    ∀ p, classify_file p = classifySpec p := by
  intro p
  simp only [classify_file, classifySpec, firstCategory, file_patterns, categoryMatches,
    devRules_keywords, buildRules_keywords, infraRules_keywords, kwTier,
    List.any_nil, Bool.or_false, Bool.or_assoc, if_or_collapse]

/-- Claim C6 counterexample: on an unmatched path the classifier returns the
lowercase string `'development'`, which is not the category value
`'Development'` that the claim's fallback names. -/
theorem classify_fallback_lowercase_cex :
    classify_file (str "randomfile.xyz") = str "development" ∧
    str "development" ≠ str "Development" := by decide

/-- Claim C2 counterexample: `classify('tests/test_foo.py')` returns
Development, not Test — the `.py` Development extension rule fires before the
Test category is ever examined. -/
theorem classify_test_path_cex :
    classify_file (str "tests/test_foo.py") = str "Development" ∧
    str "Development" ≠ str "Test" := by decide

/-- Claim C2 (amended): the classifier maps `src/main.py` to Development,
`tests/test_foo.py` to Development (the Development `.py` extension tier
fires first), `package.json` to Build, `Dockerfile` to Infrastructure, and
`randomfile.xyz` to the lowercase fallback string `'development'`. -/
theorem classify_spec_examples :
    classify_file (str "src/main.py") = str "Development" ∧
    classify_file (str "tests/test_foo.py") = str "Development" ∧
    classify_file (str "package.json") = str "Build" ∧
    classify_file (str "Dockerfile") = str "Infrastructure" ∧
    classify_file (str "randomfile.xyz") = str "development" := by decide

/-- Claim C10: the extension tier compares against the original-case path while
the path, filename, and keyword tiers only ever see lowercased inputs — so
those three tiers cannot distinguish paths agreeing up to case, while an
extension differing from a rule only by case (`foo.PY`) matches no extension
rule and the path falls through to the later tiers (`main.PY` is caught by the
filename tier; `foo.PY` reaches the `'development'` fallback, unlike
`foo.py`). -/
theorem ext_tier_case_sensitive :
    (∀ (rules : CategoryRules) (p q : Str),
      lowerStr p = lowerStr q →
      lowerStr (lastSegment p) = lowerStr (lastSegment q) →
        pathTier rules.paths (lowerStr p) = pathTier rules.paths (lowerStr q) ∧
        fileTier rules.filenames (lowerStr (lastSegment p)) =
          fileTier rules.filenames (lowerStr (lastSegment q)) ∧
        kwTier rules.keywords (lowerStr (lastSegment p)) (lowerStr p) =
          kwTier rules.keywords (lowerStr (lastSegment q)) (lowerStr q)) ∧
    extTier devRules.extensions (str "foo.PY") = false ∧
    extTier devRules.extensions (str "foo.py") = true ∧
    lowerStr (str "foo.PY") = lowerStr (str "foo.py") ∧
    classify_file (str "foo.PY") = str "development" ∧
    classify_file (str "foo.py") = str "Development" ∧
    classify_file (str "main.PY") = str "Development" := by
  refine ⟨?_, by decide, by decide, by decide, by decide, by decide, by decide⟩
  intro rules p q h1 h2
  rw [h1, h2]
  exact ⟨rfl, rfl, rfl⟩

/-- Witness for C10's universal part at a concrete pair of case-variant
paths. -/
theorem ext_tier_case_sensitive_witness :
    pathTier devRules.paths (lowerStr (str "SRC/foo.c")) =
      pathTier devRules.paths (lowerStr (str "src/FOO.C")) ∧
    fileTier devRules.filenames (lowerStr (lastSegment (str "SRC/foo.c"))) =
      fileTier devRules.filenames (lowerStr (lastSegment (str "src/FOO.C"))) ∧
    kwTier devRules.keywords (lowerStr (lastSegment (str "SRC/foo.c"))) (lowerStr (str "SRC/foo.c")) =
      kwTier devRules.keywords (lowerStr (lastSegment (str "src/FOO.C"))) (lowerStr (str "src/FOO.C")) :=
  ext_tier_case_sensitive.1 devRules (str "SRC/foo.c") (str "src/FOO.C")
    (by decide) (by decide)

/-! ## Repository reference parser (`parse_github_url`, repo_scraper.py lines 148-162)

`re.match` anchors a pattern at the start of the string only, so every matcher
below accepts trailing text.  The groups `([^/]+)` are greedy runs of
non-slash characters; for the first two patterns greediness is captured
exactly by `takeWhile`, and for `([^/]+)\.git` by an explicit longest-match
search (`sshGroup2Aux`). -/

/-- Matcher for the third pattern `([^/]+)/([^/]+)` (bare `owner/repo`). -/
def matchBare (s : Str) : Option (Str × Str) :=
  let g1 := s.takeWhile (fun c => c != '/')
  if g1.isEmpty then none
  else
    match s.dropWhile (fun c => c != '/') with
    | [] => none
    | _ :: r2 =>
      let g2 := r2.takeWhile (fun c => c != '/')
      if g2.isEmpty then none else some (g1, g2)

/-- `stripPrefixB p s = some r` exactly when `s = p ++ r`. -/
def stripPrefixB : Str → Str → Option Str
  | [], s => some s
  | _ :: _, [] => none
  | p :: ps, c :: cs => if p == c then stripPrefixB ps cs else none

/-- Matcher for the first pattern `https://github\.com/([^/]+)/([^/]+)/?`:
after the literal head the group structure coincides with the bare matcher
(the optional trailing slash constrains nothing, and trailing text is
ignored anyway). -/
def matchHttps (s : Str) : Option (Str × Str) :=
  match stripPrefixB (str "https://github.com/") s with
  | some rest => matchBare rest
  | none => none

/-- Greedy backtracking of `([^/]+)\.git` on a slash-free input: the longest
(possibly empty) `p` such that `p ++ ".git"` is a prefix of the input. -/
def sshGroup2Aux : Str → Option Str
  | [] => none
  | c :: rest =>
    match sshGroup2Aux rest with
    | some p => some (c :: p)
    | none => if isPrefixOfB (str ".git") (c :: rest) then some [] else none

/-- Matcher for the second pattern `git@github\.com:([^/]+)/([^/]+)\.git`. -/
def matchSsh (s : Str) : Option (Str × Str) :=
  match stripPrefixB (str "git@github.com:") s with
  | none => none
  | some rest =>
    let g1 := rest.takeWhile (fun c => c != '/')
    if g1.isEmpty then none
    else
      match rest.dropWhile (fun c => c != '/') with
      | [] => none
      | _ :: r2 =>
        match sshGroup2Aux (r2.takeWhile (fun c => c != '/')) with
        | some g2 => if g2.isEmpty then none else some (g1, g2)
        | none => none

/-- The character set handed to `repo.rstrip(".git")`. -/
def gitChars : Str := str ".git"

/-- `parse_github_url` (repo_scraper.py lines 148-162): strip the input, try
the three patterns in order, and on the first match return
`(owner, repo.rstrip(".git"))`; raise `ValueError` (modelled as `none`) when
none matches. -/
def parse_github_url (url : Str) : Option (Str × Str) :=
  let t := pyStrip url
  match matchHttps t with
  | some (owner, repo) => some (owner, pyRstrip repo gitChars)
  | none =>
    match matchSsh t with
    | some (owner, repo) => some (owner, pyRstrip repo gitChars)
    | none =>
      match matchBare t with
      | some (owner, repo) => some (owner, pyRstrip repo gitChars)
      | none => none

example : parse_github_url (str "https://github.com/a/b") = some (str "a", str "b") := by decide
example : parse_github_url (str "git@github.com:a/b.git") = some (str "a", str "b") := by decide
example : parse_github_url (str "a/b") = some (str "a", str "b") := by decide
example : parse_github_url (str "not a valid ref!!") = none := by decide

/-- Claim C9 evaluation at failing inputs: `rstrip(".git")` removes a trailing
run of characters from the SET `{'.','g','i','t'}`, so `a/git` parses to an
EMPTY name (the non-emptiness invariant fails) and `a/bgit` loses its `git`
tail even though `.git` is not a suffix of `bgit`; an ordinary name such as
`tool.git` still loses exactly its `.git` suffix. -/
theorem parse_rstrip_strips_char_set :
    parse_github_url (str "a/git") = some (str "a", str "") ∧
    parse_github_url (str "a/bgit") = some (str "a", str "b") ∧
    parse_github_url (str "https://github.com/a/tool.git") = some (str "a", str "tool") := by
  decide

/-- Claim C8: parsing fails exactly when none of the three patterns matches
the stripped input, and in particular `'not a valid ref!!'` (which contains no
`/` at all) matches none of them and fails. -/
theorem parse_fails_iff_no_form_matches :
    parse_github_url (str "not a valid ref!!") = none ∧
    ∀ s, parse_github_url s = none ↔
      (matchHttps (pyStrip s) = none ∧ matchSsh (pyStrip s) = none ∧
        matchBare (pyStrip s) = none) := by
  refine ⟨by decide, ?_⟩
  intro s
  simp only [parse_github_url]
  cases h1 : matchHttps (pyStrip s) with
  | some p => rcases p with ⟨o, r⟩; simp [h1]
  | none =>
    cases h2 : matchSsh (pyStrip s) with
    | some p => rcases p with ⟨o, r⟩; simp [h1, h2]
    | none =>
      cases h3 : matchBare (pyStrip s) with
      | some p => rcases p with ⟨o, r⟩; simp [h1, h2, h3]
      | none => simp [h1, h2, h3]

/-! ## Agreement of the three reference forms (claim C7) -/

/-- Characters that can appear in a well-formed GitHub owner or repository
name: alphanumerics, hyphen, underscore, dot. -/
def refChar (c : Char) : Bool := c.isAlphanum || c == '-' || c == '_' || c == '.'

/-- The HTTPS form of a repository reference. -/
def httpsUrl (o n : Str) : Str := str "https://github.com/" ++ (o ++ '/' :: n)

/-- The SSH form of a repository reference. -/
def sshUrl (o n : Str) : Str := str "git@github.com:" ++ (o ++ '/' :: (n ++ str ".git"))

/-- The bare `owner/name` form of a repository reference. -/
def bareRef (o n : Str) : Str := o ++ '/' :: n

theorem refChar_ne_slash {c : Char} (h : refChar c = true) : c ≠ '/' := by
  rintro rfl
  exact absurd h (by decide)

theorem refChar_ne_colon {c : Char} (h : refChar c = true) : c ≠ ':' := by
  rintro rfl
  exact absurd h (by decide)

theorem refChar_not_ws {c : Char} (h : refChar c = true) : isWsChar c = false := by
  cases hw : isWsChar c with
  | false => rfl
  | true =>
    exfalso
    simp only [isWsChar, Bool.or_eq_true, beq_iff_eq] at hw
    rcases hw with ((((rfl | rfl) | rfl) | rfl) | rfl) | rfl <;> exact absurd h (by decide)

theorem isEmpty_false_of_ne_nil {α : Type} {l : List α} (h : l ≠ []) : l.isEmpty = false := by
  cases l with
  | nil => exact absurd rfl h
  | cons c cs => rfl

theorem dropWhile_eq_self_of_all {P : Char → Bool} {l : Str}
    (h : ∀ x ∈ l, P x = false) : l.dropWhile P = l := by
  cases l with
  | nil => rfl
  | cons c cs => simp [List.dropWhile_cons, h c (by simp)]

theorem takeWhile_eq_self_of_all {P : Char → Bool} {l : Str}
    (h : ∀ x ∈ l, P x = true) : l.takeWhile P = l := by
  induction l with
  | nil => rfl
  | cons c cs ih =>
    simp [List.takeWhile_cons, h c (by simp), ih (fun x hx => h x (by simp [hx]))]

theorem pyStrip_eq_self {s : Str} (h : ∀ x ∈ s, isWsChar x = false) : pyStrip s = s := by
  unfold pyStrip
  rw [dropWhile_eq_self_of_all h,
    dropWhile_eq_self_of_all (fun x hx => h x (List.mem_reverse.mp hx)),
    List.reverse_reverse]

/-- Splitting `takeWhile`/`dropWhile` at the first failing character. -/
theorem takeWhile_append_cons (P : Char → Bool) (o : Str) (c : Char) (n : Str)
    (ho : ∀ x ∈ o, P x = true) (hc : P c = false) :
    (o ++ c :: n).takeWhile P = o ∧ (o ++ c :: n).dropWhile P = c :: n := by
  induction o with
  | nil => simp [List.takeWhile_cons, List.dropWhile_cons, hc]
  | cons a as ih =>
    have ha : P a = true := ho a (by simp)
    obtain ⟨h1, h2⟩ := ih (fun x hx => ho x (by simp [hx]))
    simp [List.takeWhile_cons, List.dropWhile_cons, ha, h1, h2]

theorem stripPrefixB_append (p r : Str) : stripPrefixB p (p ++ r) = some r := by
  induction p with
  | nil => rfl
  | cons c cs ih => simp [stripPrefixB, ih]

theorem stripPrefixB_eq_some : ∀ {p s r : Str}, stripPrefixB p s = some r → s = p ++ r := by
  intro p
  induction p with
  | nil => intro s r h; simp only [stripPrefixB, Option.some.injEq] at h; simp [h]
  | cons c cs ih =>
    intro s r h
    cases s with
    | nil => simp [stripPrefixB] at h
    | cons b bs =>
      simp only [stripPrefixB] at h
      split at h
      · next heq =>
        have hb : c = b := by
          have := of_decide_eq_true (by exact heq)
          exact this
        subst hb
        simp [ih h]
      · exact absurd h (by simp)

/-- A slash-free prefix of `o ++ '/' :: n` with `o` slash-free is a prefix
of `o`. -/
theorem append_eq_sep_prefix :
    ∀ (p r o n : Str), p ++ r = o ++ '/' :: n → (∀ x ∈ p, x ≠ '/') →
      ∃ t, o = p ++ t := by
  intro p
  induction p with
  | nil => intro r o n _ _; exact ⟨o, rfl⟩
  | cons c ps ih =>
    intro r o n h hp
    cases o with
    | nil =>
      simp only [List.nil_append, List.cons_append, List.cons.injEq] at h
      exact absurd h.1 (hp c (by simp))
    | cons b bs =>
      simp only [List.cons_append, List.cons.injEq] at h
      obtain ⟨t, ht⟩ := ih r bs n h.2 (fun x hx => hp x (by simp [hx]))
      exact ⟨t, by simp [← h.1, ht]⟩

theorem sshGroup2Aux_append (n : Str) : sshGroup2Aux (n ++ str ".git") = some n := by
  induction n with
  | nil => rfl
  | cons c cs ih => simp [sshGroup2Aux, ih]

theorem matchBare_pos (o n : Str) (ho : o ≠ []) (hn : n ≠ [])
    (ho' : ∀ x ∈ o, x ≠ '/') (hn' : ∀ x ∈ n, x ≠ '/') :
    matchBare (o ++ '/' :: n) = some (o, n) := by
  have hPo : ∀ x ∈ o, (x != '/') = true := fun x hx => by simp [ho' x hx]
  have hPn : ∀ x ∈ n, (x != '/') = true := fun x hx => by simp [hn' x hx]
  have hc : (('/' : Char) != '/') = false := by decide
  obtain ⟨h1, h2⟩ := takeWhile_append_cons (fun c => c != '/') o '/' n hPo hc
  simp [matchBare, h1, h2, isEmpty_false_of_ne_nil ho, isEmpty_false_of_ne_nil hn,
    takeWhile_eq_self_of_all hPn]

theorem matchHttps_notBare (o n : Str) (ho : ∀ x ∈ o, refChar x = true) :
    matchHttps (o ++ '/' :: n) = none := by
  cases h : stripPrefixB (str "https://github.com/") (o ++ '/' :: n) with
  | none => simp [matchHttps, h]
  | some rest =>
    exfalso
    have heq := stripPrefixB_eq_some h
    have heq2 : (str "https:") ++ ((str "//github.com/") ++ rest) = o ++ '/' :: n := by
      rw [← List.append_assoc]
      exact heq.symm
    obtain ⟨t, ht⟩ := append_eq_sep_prefix _ _ o n heq2 (by decide)
    have hcolon : ':' ∈ o := by
      rw [ht]
      exact List.mem_append_left _ (by decide)
    exact absurd (ho ':' hcolon) (by decide)

theorem matchSsh_notBare (o n : Str) (ho : ∀ x ∈ o, refChar x = true) :
    matchSsh (o ++ '/' :: n) = none := by
  cases h : stripPrefixB (str "git@github.com:") (o ++ '/' :: n) with
  | none => simp [matchSsh, h]
  | some rest =>
    exfalso
    have heq := stripPrefixB_eq_some h
    obtain ⟨t, ht⟩ := append_eq_sep_prefix (str "git@github.com:") rest o n heq.symm (by decide)
    have hcolon : ':' ∈ o := by
      rw [ht]
      exact List.mem_append_left _ (by decide)
    exact absurd (ho ':' hcolon) (by decide)

theorem matchHttps_pos (o n : Str) (ho : o ≠ []) (hn : n ≠ [])
    (ho' : ∀ x ∈ o, x ≠ '/') (hn' : ∀ x ∈ n, x ≠ '/') :
    matchHttps (httpsUrl o n) = some (o, n) := by
  simp [matchHttps, httpsUrl, stripPrefixB_append, matchBare_pos o n ho hn ho' hn']

theorem matchHttps_sshUrl (o n : Str) : matchHttps (sshUrl o n) = none := rfl

theorem matchSsh_pos (o n : Str) (ho : o ≠ []) (hn : n ≠ [])
    (ho' : ∀ x ∈ o, x ≠ '/') (hn' : ∀ x ∈ n, x ≠ '/') :
    matchSsh (sshUrl o n) = some (o, n) := by
  have hPo : ∀ x ∈ o, (x != '/') = true := fun x hx => by simp [ho' x hx]
  have hc : (('/' : Char) != '/') = false := by decide
  have hrest : ∀ x ∈ n ++ str ".git", (x != '/') = true := by
    intro x hx
    rcases List.mem_append.mp hx with hx | hx
    · simp [hn' x hx]
    · simp only [str] at hx
      rcases List.mem_cons.mp hx with rfl | hx
      · decide
      · rcases List.mem_cons.mp hx with rfl | hx
        · decide
        · rcases List.mem_cons.mp hx with rfl | hx
          · decide
          · rcases List.mem_cons.mp hx with rfl | hx
            · decide
            · simp at hx
  obtain ⟨h1, h2⟩ := takeWhile_append_cons (fun c => c != '/') o '/' (n ++ str ".git") hPo hc
  simp [matchSsh, sshUrl, stripPrefixB_append, h1, h2, isEmpty_false_of_ne_nil ho,
    takeWhile_eq_self_of_all hrest, sshGroup2Aux_append, isEmpty_false_of_ne_nil hn]

/-- None of the three textual forms of a well-formed reference contains
whitespace, so `url.strip()` leaves them unchanged. -/
theorem forms_no_ws {o n : Str} (ho : ∀ x ∈ o, refChar x = true)
    (hn : ∀ x ∈ n, refChar x = true) :
    (∀ x ∈ httpsUrl o n, isWsChar x = false) ∧
    (∀ x ∈ sshUrl o n, isWsChar x = false) ∧
    (∀ x ∈ bareRef o n, isWsChar x = false) := by
  have hbare : ∀ x ∈ bareRef o n, isWsChar x = false := by
    intro x hx
    rcases List.mem_append.mp hx with hx | hx
    · exact refChar_not_ws (ho x hx)
    · rcases List.mem_cons.mp hx with rfl | hx
      · decide
      · exact refChar_not_ws (hn x hx)
  refine ⟨?_, ?_, hbare⟩
  · intro x hx
    rcases List.mem_append.mp hx with hx | hx
    · exact (by decide : ∀ y ∈ str "https://github.com/", isWsChar y = false) x hx
    · exact hbare x hx
  · intro x hx
    rcases List.mem_append.mp hx with hx | hx
    · exact (by decide : ∀ y ∈ str "git@github.com:", isWsChar y = false) x hx
    · rcases List.mem_append.mp hx with hx | hx
      · exact refChar_not_ws (ho x hx)
      · rcases List.mem_cons.mp hx with rfl | hx
        · decide
        · rcases List.mem_append.mp hx with hx | hx
          · exact refChar_not_ws (hn x hx)
          · exact (by decide : ∀ y ∈ str ".git", isWsChar y = false) x hx

/-- Claim C7: for every well-formed owner and repository name (non-empty,
made of alphanumerics, `-`, `_`, `.`), the HTTPS URL form, the SSH form, and
the bare `owner/name` form of the same repository all parse to the identical
(owner, name) pair. -/
theorem parse_three_forms_agree (o n : Str) (ho : o ≠ []) (hn : n ≠ [])
    (hoc : ∀ x ∈ o, refChar x = true) (hnc : ∀ x ∈ n, refChar x = true) :
    parse_github_url (httpsUrl o n) = some (o, pyRstrip n gitChars) ∧
    parse_github_url (sshUrl o n) = some (o, pyRstrip n gitChars) ∧
    parse_github_url (bareRef o n) = some (o, pyRstrip n gitChars) := by
  have ho' : ∀ x ∈ o, x ≠ '/' := fun x hx => refChar_ne_slash (hoc x hx)
  have hn' : ∀ x ∈ n, x ≠ '/' := fun x hx => refChar_ne_slash (hnc x hx)
  obtain ⟨hw1, hw2, hw3⟩ := forms_no_ws hoc hnc
  refine ⟨?_, ?_, ?_⟩
  · simp [parse_github_url, pyStrip_eq_self hw1, matchHttps_pos o n ho hn ho' hn']
  · simp [parse_github_url, pyStrip_eq_self hw2, matchHttps_sshUrl,
      matchSsh_pos o n ho hn ho' hn']
  · have hps : pyStrip (o ++ '/' :: n) = o ++ '/' :: n := pyStrip_eq_self hw3
    simp [parse_github_url, bareRef, hps,
      matchHttps_notBare o n hoc, matchSsh_notBare o n hoc,
      matchBare_pos o n ho hn ho' hn']

/-- Witness for C7 at the spec's example `a` / `b`. -/
theorem parse_three_forms_agree_witness :
    parse_github_url (str "https://github.com/a/b") = some (str "a", str "b") ∧
    parse_github_url (str "git@github.com:a/b.git") = some (str "a", str "b") ∧
    parse_github_url (str "a/b") = some (str "a", str "b") :=
  parse_three_forms_agree (str "a") (str "b") (by decide) (by decide) (by decide) (by decide)

/-! ## Commit fetching and the pipeline (`get_all_commits`,
`get_commit_changed_files`, repo_scraper.py lines 164-244, and
`get_contributors_stats`, commit_info.py lines 23-45)

HTTP endpoints are mocked as response scripts `Nat → Resp` indexed by the
number of requests issued so far; the unbounded `while True` loops take
explicit fuel, and running out of fuel yields a distinct `hang` outcome, so
"the loop never terminates" is expressible as "`hang` for every fuel". -/

/-- One commit summary as `CommitData.__init__` (lines 119-124) reads it off a
listing entry: `commit["sha"]`, `commit["commit"]["author"]["name"]`,
`commit["commit"]["author"]["date"]`. -/
structure CommitSummary where
  sha : Str
  authorName : Str
  authorDate : Str
deriving DecidableEq

/-- One entry of the `files` array of a commit-detail payload, with the three
fields `FileData.__init__` (lines 105-109) reads. -/
structure FileInfo where
  filename : Str
  additions : Nat
  deletions : Nat
deriving DecidableEq

/-- The dict produced by `FileData.to_dict` (lines 111-117). -/
structure FileDict where
  filename : Str
  lines_changed : Nat
  category : Str
deriving DecidableEq

/-- `FileData.to_dict`: `lines_changed` is additions + deletions and
`category` comes from the classifier applied to the filename. -/
def FileData_to_dict (fi : FileInfo) : FileDict :=
  { filename := fi.filename
    lines_changed := fi.additions + fi.deletions
    category := classify_file fi.filename }

/-- The dict produced by `CommitData.to_dict` (lines 126-132); `Files` is
`none` when the detail fetch failed, mirroring line 218, which stores the
detail fetcher's return value — possibly `None` — unchanged. -/
structure CommitDict where
  sha : Str
  Author : Str
  Date : Str
  Files : Option (List FileDict)
deriving DecidableEq

/-- A scripted response of the commit-detail endpoint. -/
inductive DetailResp where
  | ok (files : List FileInfo)
  | errStatus (code : Nat)
  | netErr
deriving DecidableEq

/-- `get_commit_changed_files` (lines 224-244): issue one request; on 200
convert the `files` entries with `FileData.to_dict`; on any other status, and
on a transport exception, print a message and return `None`.  The function
contains no loop, no 202 branch and no sleep. -/
def get_commit_changed_files (resp : DetailResp) : Option (List FileDict) :=
  match resp with
  | .ok files => some (files.map FileData_to_dict)
  | .errStatus _ => none
  | .netErr => none

/-- Request/backoff accounting of `get_commit_changed_files` against a mocked
response sequence: it consumes exactly the first scripted response, issuing
one request and zero backoff waits, whatever the status is. -/
def get_commit_changed_files_requests (resps : Nat → DetailResp) :
    Option (List FileDict) × Nat × Nat :=
  (get_commit_changed_files (resps 0), 1, 0)

/-- Python dict assignment `d[k] = v` on an insertion-ordered dict: replace in
place when the key exists, append otherwise. -/
def dictInsert (d : List (Str × CommitDict)) (k : Str) (v : CommitDict) :
    List (Str × CommitDict) :=
  match d with
  | [] => [(k, v)]
  | (k', v') :: rest => if k' = k then (k', v) :: rest else (k', v') :: dictInsert rest k v

/-- The record assembled for one commit (lines 213-219). -/
def commitRecord (detail : Str → DetailResp) (c : CommitSummary) : CommitDict :=
  { sha := c.sha
    Author := c.authorName
    Date := c.authorDate
    Files := get_commit_changed_files (detail c.sha) }

/-- The post-pagination processing loop of `get_all_commits` (lines 210-219):
build `data_we_need` keyed by sha in fetch order, one entry per commit
whatever the outcome of its detail fetch. -/
def processCommits (detail : Str → DetailResp) (commits : List CommitSummary) :
    List (Str × CommitDict) :=
  commits.foldl (fun d c => dictInsert d c.sha (commitRecord detail c)) []

/-- A scripted response of the commit-listing endpoint. -/
inductive ListResp where
  | ok (commits : List CommitSummary)
  | errStatus (code : Nat)
  | netErr
deriving DecidableEq

/-- Observable trace of the pagination loop: the commits accumulated, the
number of page requests issued, and the page number of every request in
order. -/
structure ListingTrace where
  commits : List CommitSummary
  requests : Nat
  pages : List Nat
deriving DecidableEq

/-- Result of the pagination loop alone. -/
inductive ListingResult where
  | done (t : ListingTrace)
  | netFail (t : ListingTrace)
  | hang (t : ListingTrace)
deriving DecidableEq

/-- `per_page = 100`, the maximum the host allows (line 173). -/
def per_page : Nat := 100

/-- The `while True` pagination loop of `get_all_commits` (lines 177-206).
On 200: an empty page breaks with the accumulator unchanged; a short page
(fewer than `per_page` entries) is appended and breaks; a full page is
appended and the page number advances.  On any OTHER HTTP status the code
prints an error message and loops again WITHOUT advancing the page — the
`else` branch at lines 202-203 has no `break` or `return` — so the same page
is requested again forever.  A transport exception returns `None`
(`netFail`).  The `time.sleep(0.1)` between pages is not observable here and
is not modelled. -/
def get_all_commits_loop (resp : Nat → ListResp) : Nat → Nat → ListingTrace → ListingResult
  | 0, _, t => .hang t
  | fuel + 1, page, t =>
    let t' : ListingTrace :=
      { commits := t.commits, requests := t.requests + 1, pages := t.pages ++ [page] }
    match resp t.requests with
    | .ok commits =>
      if commits.isEmpty then .done t'
      else if commits.length < per_page then
        .done { t' with commits := t.commits ++ commits }
      else get_all_commits_loop resp fuel (page + 1) { t' with commits := t.commits ++ commits }
    | .errStatus _ => get_all_commits_loop resp fuel page t'
    | .netErr => .netFail t'

/-- Overall outcome of one `get_all_commits` run. -/
inductive RunResult where
  | written (data : List (Str × CommitDict)) (t : ListingTrace)
  | listingNetFail (t : ListingTrace)
  | hang (t : ListingTrace)
deriving DecidableEq

/-- `get_all_commits` end to end (lines 164-222): paginate, then process every
commit, then hand the result set to `write_data_to_json` unconditionally —
the only paths that do not reach the write are a listing transport error
(early `return None`, line 206) and the pagination loop never terminating.
Detail-fetch failures have no abort path. -/
def get_all_commits_model (resp : Nat → ListResp) (detail : Str → DetailResp)
    (fuel : Nat) : RunResult :=
  match get_all_commits_loop resp fuel 1 ⟨[], 0, []⟩ with
  | .done t => .written (processCommits detail t.commits) t
  | .netFail t => .listingNetFail t
  | .hang t => .hang t

/-- Outcome of the contributor-stats polling loop. -/
inductive StatsOutcome where
  | success (payload : Nat) (requests : Nat) (sleeps : Nat)
  | failure (code : Nat) (requests : Nat) (sleeps : Nat)
  | hang
deriving DecidableEq

/-- The `while True` polling loop of `get_contributors_stats`
(commit_info.py lines 31-45), with responses scripted as
(status code, payload) pairs: 202 sleeps 3 seconds (one recorded backoff
wait) and retries; 200 returns the payload; 404 and every other status print
a message and return `None` (`failure`, carrying the status). -/
def get_contributors_stats_loop (resp : Nat → Nat × Nat) : Nat → Nat → Nat → StatsOutcome
  | 0, _, _ => .hang
  | fuel + 1, reqs, sleeps =>
    let r := resp reqs
    if r.1 = 202 then get_contributors_stats_loop resp fuel (reqs + 1) (sleeps + 1)
    else if r.1 = 200 then .success r.2 (reqs + 1) sleeps
    else .failure r.1 (reqs + 1) sleeps

/-! ## Fetcher and pipeline theorems -/

theorem listing_err_hang_aux (code : Nat) :
    ∀ (fuel page : Nat) (t : ListingTrace),
      get_all_commits_loop (fun _ => ListResp.errStatus code) fuel page t =
        .hang ⟨t.commits, t.requests + fuel, t.pages ++ List.replicate fuel page⟩ := by
  intro fuel
  induction fuel with
  | zero => intro page t; simp [get_all_commits_loop]
  | succ f ih =>
    intro page t
    simp only [get_all_commits_loop]
    rw [ih]
    have h1 : t.requests + 1 + f = t.requests + (f + 1) := by omega
    have h2 : (t.pages ++ [page]) ++ List.replicate f page =
        t.pages ++ List.replicate (f + 1) page := by
      simp [List.replicate_succ]
    simp only [h1, h2]

/-- Claim C3 evaluation at the failing scenario: when every listing response
has a non-success status (for example 404), the pagination loop neither stops
nor surfaces the failure — for EVERY fuel bound it is still running, has
issued one request per unit of fuel, and every one of those requests was for
the same page 1.  The claimed stop-and-surface behaviour never happens; the
code's `else` branch (lines 202-203) falls through to the next loop
iteration without `break` or `return`. -/
theorem listing_failure_infinite_retry (code : Nat) :
    ∀ fuel,
      get_all_commits_loop (fun _ => ListResp.errStatus code) fuel 1 ⟨[], 0, []⟩ =
        .hang ⟨[], fuel, List.replicate fuel 1⟩ := by
  intro fuel
  simpa using listing_err_hang_aux code fuel 1 ⟨[], 0, []⟩

/-- Response script serving pages `l1`, `l2`, `l3` in order. -/
def pageScript (l1 l2 l3 : List CommitSummary) : Nat → ListResp :=
  fun k => if k = 0 then .ok l1 else if k = 1 then .ok l2 else .ok l3

/-- Claim C5: pages are requested from page 1 with size 100; a listing with
page sizes 100, 100, 37 terminates after exactly 3 requests (pages 1, 2, 3)
yielding all 237 summaries in order, and an empty first page terminates after
exactly 1 request with no commits and no error. -/
theorem pagination_termination (l1 l2 l3 : List CommitSummary)
    (h1 : l1.length = 100) (h2 : l2.length = 100) (h3 : l3.length = 37) :
    (∀ fuel, 3 ≤ fuel →
      get_all_commits_loop (pageScript l1 l2 l3) fuel 1 ⟨[], 0, []⟩ =
        .done ⟨l1 ++ l2 ++ l3, 3, [1, 2, 3]⟩) ∧
    (l1 ++ l2 ++ l3).length = 237 ∧
    (∀ fuel, 1 ≤ fuel →
      get_all_commits_loop (fun _ => ListResp.ok []) fuel 1 ⟨[], 0, []⟩ =
        .done ⟨[], 1, [1]⟩) := by
  refine ⟨?_, by simp [h1, h2, h3], ?_⟩
  · intro fuel hf
    obtain ⟨f, rfl⟩ : ∃ f, fuel = f + 3 := ⟨fuel - 3, by omega⟩
    have e1 : l1 ≠ [] := by intro h; rw [h] at h1; simp at h1
    have e2 : l2 ≠ [] := by intro h; rw [h] at h2; simp at h2
    have e3 : l3 ≠ [] := by intro h; rw [h] at h3; simp at h3
    simp [get_all_commits_loop, pageScript, per_page, e1, e2, e3, h1, h2, h3]
  · intro fuel hf
    obtain ⟨f, rfl⟩ : ∃ f, fuel = f + 1 := ⟨fuel - 1, by omega⟩
    simp [get_all_commits_loop]

/-- A commit summary used to instantiate the pagination witness. -/
def commitStub : CommitSummary := ⟨str "s", str "a", str "d"⟩

/-- Witness for C5 with concrete pages of sizes 100, 100, 37 and fuel 3. -/
theorem pagination_termination_witness :
    get_all_commits_loop
      (pageScript (List.replicate 100 commitStub) (List.replicate 100 commitStub)
        (List.replicate 37 commitStub)) 3 1 ⟨[], 0, []⟩ =
      .done ⟨List.replicate 100 commitStub ++ List.replicate 100 commitStub ++
        List.replicate 37 commitStub, 3, [1, 2, 3]⟩ :=
  ((pagination_termination _ _ _ (by simp) (by simp) (by simp)).1) 3 (by omega)

/-- Claim C1 counterexample: one listed commit whose detail fetch returns 404
does not abort the run — the pipeline terminates normally and a result set
keyed by the commit id, with `Files = none`, IS handed to the sink. -/
theorem detail_404_still_writes_cex :
    get_all_commits_model
      (fun _ => ListResp.ok [⟨str "abc123", str "Alice", str "2024-01-01"⟩])
      (fun _ => DetailResp.errStatus 404) 1 =
      RunResult.written
        [(str "abc123", ⟨str "abc123", str "Alice", str "2024-01-01", none⟩)]
        ⟨[⟨str "abc123", str "Alice", str "2024-01-01"⟩], 1, [1]⟩ ∧
    [(str "abc123", (⟨str "abc123", str "Alice", str "2024-01-01", none⟩ : CommitDict))] ≠
      [] := by
  decide

theorem dictInsert_fresh (d : List (Str × CommitDict)) (k : Str) (v : CommitDict)
    (h : ∀ p ∈ d, p.1 ≠ k) : dictInsert d k v = d ++ [(k, v)] := by
  induction d with
  | nil => rfl
  | cons p rest ih =>
    rcases p with ⟨k', v'⟩
    have hk : k' ≠ k := h (k', v') (by simp)
    simp [dictInsert, hk, ih (fun q hq => h q (by simp [hq]))]

theorem processCommits_foldl_aux (detail : Str → DetailResp) :
    ∀ (commits : List CommitSummary) (d : List (Str × CommitDict)),
      (commits.map CommitSummary.sha).Nodup →
      (∀ c ∈ commits, ∀ p ∈ d, p.1 ≠ c.sha) →
      commits.foldl (fun d c => dictInsert d c.sha (commitRecord detail c)) d =
        d ++ commits.map (fun c => (c.sha, commitRecord detail c)) := by
  intro commits
  induction commits with
  | nil => intro d _ _; simp
  | cons c cs ih =>
    intro d hnd hfresh
    have hnd' : (c.sha :: cs.map CommitSummary.sha).Nodup := by simpa using hnd
    simp only [List.foldl_cons]
    rw [dictInsert_fresh d c.sha _ (hfresh c (by simp))]
    rw [ih (d ++ [(c.sha, commitRecord detail c)]) (List.nodup_cons.mp hnd').2 ?fresh]
    · simp
    case fresh =>
      intro c' hc' p hp
      rcases List.mem_append.mp hp with hp | hp
      · exact hfresh c' (by simp [hc']) p hp
      · rcases List.mem_cons.mp hp with rfl | hp
        · intro hEq
          have hmem : c.sha ∈ cs.map CommitSummary.sha := by
            have : c.sha = c'.sha := hEq
            rw [this]
            exact List.mem_map_of_mem CommitSummary.sha hc'
          exact (List.nodup_cons.mp hnd').1 hmem
        · simp at hp

/-- Claim C1 (amended): a failed commit-detail fetch (404, any other status,
or a transport error) does NOT abort the run.  The result set always carries
exactly one record per listed commit, in order, with `Files = none` for the
commits whose detail fetch failed, and whenever the pagination loop completes
the run ends in a sink write of that result set — there is no abort path
between pagination and the write. -/
theorem detail_failure_never_aborts (detail : Str → DetailResp)
    (commits : List CommitSummary) (hnd : (commits.map CommitSummary.sha).Nodup) :
    processCommits detail commits =
      commits.map (fun c => (c.sha,
        ({ sha := c.sha, Author := c.authorName, Date := c.authorDate,
           Files := get_commit_changed_files (detail c.sha) } : CommitDict))) ∧
    ∀ (resp : Nat → ListResp) (fuel : Nat) (t : ListingTrace),
      get_all_commits_loop resp fuel 1 ⟨[], 0, []⟩ = .done t →
      get_all_commits_model resp detail fuel = .written (processCommits detail t.commits) t := by
  constructor
  · have h := processCommits_foldl_aux detail commits [] hnd (by simp)
    simpa [processCommits, commitRecord] using h
  · intro resp fuel t h
    simp [get_all_commits_model, h]

/-- Witness for C1's amended claim on two concrete commits, both of whose
detail fetches fail with 404. -/
theorem detail_failure_never_aborts_witness :
    processCommits (fun _ => DetailResp.errStatus 404)
      [⟨str "s1", str "a", str "d"⟩, ⟨str "s2", str "b", str "e"⟩] =
      [(str "s1", ⟨str "s1", str "a", str "d", none⟩),
       (str "s2", ⟨str "s2", str "b", str "e", none⟩)] :=
  (detail_failure_never_aborts (fun _ => DetailResp.errStatus 404)
    [⟨str "s1", str "a", str "d"⟩, ⟨str "s2", str "b", str "e"⟩] (by decide)).1

/-- Claim C4 counterexample: on the mocked response sequence 202, 202, 200 the
commit-detail fetcher issues exactly ONE request with ZERO backoff waits and
returns `None` — 202 falls into its generic non-200 failure branch — rather
than the claimed 3 requests, 2 waits and the 200 payload. -/
theorem detail_fetch_202_no_retry_cex :
    get_commit_changed_files_requests
      (fun k => if k ≤ 1 then DetailResp.errStatus 202 else DetailResp.ok []) =
      (none, 1, 0) ∧ (1 : Nat) ≠ 3 ∧ (0 : Nat) ≠ 2 := by
  decide

theorem stats_const202_hang :
    ∀ (fuel reqs sleeps : Nat),
      get_contributors_stats_loop (fun _ => (202, 0)) fuel reqs sleeps = .hang := by
  intro fuel
  induction fuel with
  | zero => intro _ _; rfl
  | succ f ih => intro reqs sleeps; simp [get_contributors_stats_loop, ih]

/-- Response script for the stats endpoint: 202 twice, then 200 carrying
payload `p`. -/
def statsScript (p : Nat) : Nat → Nat × Nat :=
  fun k => if k = 0 then (202, 0) else if k = 1 then (202, 0) else (200, p)

/-- Claim C4 (amended): the fixed 3-second-backoff, no-retry-limit 202 loop
lives in the contributors-stats fetcher `get_contributors_stats`
(commit_info.py), not in the commit-detail fetcher.  On the sequence
202, 202, 200 that loop issues exactly 3 requests and performs exactly 2
backoff waits, returning the 200 payload; on unbroken 202 it never terminates
for any bound; and the commit-detail fetcher `get_commit_changed_files`
always issues a single request with no backoff, whatever the scripted
responses. -/
theorem stats_202_retry_loop (p : Nat) :
    (∀ fuel, 3 ≤ fuel →
      get_contributors_stats_loop (statsScript p) fuel 0 0 = .success p 3 2) ∧
    (∀ fuel, get_contributors_stats_loop (fun _ => (202, 0)) fuel 0 0 = .hang) ∧
    ∀ (resps : Nat → DetailResp),
      get_commit_changed_files_requests resps = (get_commit_changed_files (resps 0), 1, 0) := by
  refine ⟨?_, fun fuel => stats_const202_hang fuel 0 0, fun _ => rfl⟩
  intro fuel hf
  obtain ⟨f, rfl⟩ : ∃ f, fuel = f + 3 := ⟨fuel - 3, by omega⟩
  simp [get_contributors_stats_loop, statsScript]

/-- Witness for C4's amended claim at payload 7 and fuel 3. -/
theorem stats_202_retry_loop_witness :
    get_contributors_stats_loop (statsScript 7) 3 0 0 = .success 7 3 2 :=
  ((stats_202_retry_loop 7).1) 3 (by omega)
